import Mathlib

/-!
# Verification of the Xiaohongshu content-extraction service

Shallow embedding of the two Python modules of the repository:

* `xhs.py` — `extract_xhs_content` (page fetch + meta-tag extraction) and
  `download_images` (best-effort image retrieval with content-type based
  file naming);
* `api2.py` — the `POST /extract` request facade `extract_content`
  (URL location in free text, invocation of the two functions above, and
  error wrapping).

External collaborators (the `requests` transport, the `html.parser` tag
tree, the filesystem) are modelled by explicit outcome values supplied to
the embedded functions; their *documented, deterministic* behaviours that
the code relies on (`Response.raise_for_status`, `urllib.parse.urlparse`
path extraction, `str.split`, `os.path.join`, `dict.get`, the `re` module's
leftmost-match semantics) are embedded faithfully from those libraries'
semantics.
-/

set_option autoImplicit false

namespace XHS

/-! ## Parsed HTML model

`BeautifulSoup(response.text, "html.parser")` produces a tag tree; the
extraction code only queries `soup.find`/`soup.find_all` for `meta` tags,
which search the whole tree in document order.  We therefore model the
parsed document as its document-order list of elements.  Attribute sets are
modelled as association lists with first-key-wins lookup (the parser's
attribute dict).  `html.parser` never raises on malformed input, so parsing
is total and the document is the input of the embedded extractor. -/

/-- A parsed HTML element: tag name (lower-cased by the parser) and its
attributes. -/
structure Tag where
  name : String
  attrs : List (String × String)
deriving DecidableEq

/-- `tag.get(key, default)` — bs4 `Tag.get` delegates to the attribute
dict's `get`. -/
def Tag.getD (t : Tag) (key dflt : String) : String :=
  (t.attrs.lookup key).getD dflt

/-- `soup.find("meta", attrs={"name": nm})`: first element in document
order whose tag name is `meta` and whose `name` attribute equals `nm`. -/
def findMeta (doc : List Tag) (nm : String) : Option Tag :=
  doc.find? (fun t => t.name == "meta" && t.attrs.lookup "name" == some nm)

/-- `soup.find_all("meta", attrs={"name": nm})`: all such elements, in
document order. -/
def findAllMeta (doc : List Tag) (nm : String) : List Tag :=
  doc.filter (fun t => t.name == "meta" && t.attrs.lookup "name" == some nm)

/-- The record returned by `extract_xhs_content` (the dict of
`xhs.py` lines 82–89, equally the `XHSResponse` model of `api2.py`). -/
structure ExtractedContent where
  title : Option String
  content : Option String
  image_urls : List String
  likes : Option String
  comments : Option String
  collects : Option String
deriving DecidableEq

/-- The `og:image` loop of `xhs.py` lines 56–61: for each collected tag,
`img_url = img.get("content", "")`, appended only when truthy (non-empty).
Document order and duplicates are preserved by the loop. -/
def collectImageUrls : List Tag → List String
  | [] => []
  | t :: ts =>
    let img_url := t.getD "content" ""
    if img_url ≠ "" then img_url :: collectImageUrls ts
    else collectImageUrls ts

/-- One scalar meta field (`xhs.py` lines 44–47 and the four analogous
blocks): `field = None; tag = soup.find(...); if tag: field =
tag.get("content", "")`.  A bs4 `Tag` is always truthy (`Tag.__bool__`
returns `True` even for a contentless element), so the guard is exactly
"the tag was found". -/
def scalarField (doc : List Tag) (nm : String) : Option String :=
  match findMeta doc nm with
  | some t => some (t.getD "content" "")
  | none => none

/-- The parsing part of `extract_xhs_content` (`xhs.py` lines 41–89),
applied to an already-parsed document. -/
def extractFields (doc : List Tag) : ExtractedContent :=
  { title := scalarField doc "og:title"
    content := scalarField doc "description"
    image_urls := collectImageUrls (findAllMeta doc "og:image")
    likes := scalarField doc "og:xhs:note_like"
    comments := scalarField doc "og:xhs:note_comment"
    collects := scalarField doc "og:xhs:note_collect" }

/-! ## Page fetch -/

/-- Outcome of `requests.get(url, headers=headers)` for the page fetch:
either the transport raises (`requests.exceptions.RequestException`:
connection error, timeout, too many redirects, ...) or a response arrives
with a final HTTP status (redirects are followed by `requests` before the
response is returned) and a body, modelled post-parse as a document. -/
inductive FetchOutcome where
  | netError
  | ok (status : Nat) (doc : List Tag)

/-- `Response.raise_for_status()` raises `requests.exceptions.HTTPError`
exactly when `400 <= status_code < 600` (client or server error); all
other statuses, including surfaced 3xx such as 304, do not raise. -/
def raiseForStatusRaises (status : Nat) : Bool :=
  400 ≤ status && status < 600

/-- `extract_xhs_content` (`xhs.py` lines 18–96): on a transport
exception or a `raise_for_status` failure the `except` clauses return
`None`; otherwise the parsed document's fields are returned.
`html.parser` is total, so no other exception arises in the `try` body. -/
def extract_xhs_content (o : FetchOutcome) : Option ExtractedContent :=
  match o with
  | .netError => none
  | .ok status doc =>
    if raiseForStatusRaises status then none
    else some (extractFields doc)

/-! ## Image downloader

`download_images` (`xhs.py` lines 98–153).  URLs, directory names and file
paths are modelled as `List Char` (Python `str` values); response bodies as
`String`.  The per-URL network/write outcome is supplied explicitly. -/

/-- `"needle" in haystack` — Python substring containment. -/
def listInfixOf (needle : List Char) : List Char → Bool
  | [] => needle.isEmpty
  | c :: t => needle.isPrefixOf (c :: t) || listInfixOf needle t

/-- The extension chain of `xhs.py` lines 122–131: substring tests on the
`Content-Type` header value, in source order, defaulting to `.jpg`. -/
def inferExt (content_type : List Char) : List Char :=
  if listInfixOf "image/jpeg".data content_type then ".jpg".data
  else if listInfixOf "image/png".data content_type then ".png".data
  else if listInfixOf "image/webp".data content_type then ".webp".data
  else ".jpg".data

/-- `response.headers.get("Content-Type", "")` — `requests` response
headers are a case-insensitive dict. -/
def contentTypeOf (headers : List (String × String)) : List Char :=
  match headers.find? (fun p => p.1.data.map Char.toLower == "content-type".data) with
  | some p => p.2.data
  | none => "".data

/-- A character allowed in a URL scheme by `urllib.parse`
(letters, digits, `+`, `-`, `.`). -/
def isSchemeChar (c : Char) : Bool :=
  c.isAlpha || c.isDigit || c == '+' || c == '-' || c == '.'

/-- The scheme split of `urllib.parse.urlsplit`: when the text before the
first `:` is a nonempty run of scheme characters starting with a letter,
everything after that `:` remains; otherwise the URL is unchanged. -/
def splitScheme (u : List Char) : List Char :=
  let pre := u.takeWhile (fun c => c ≠ ':')
  if pre.length < u.length && !pre.isEmpty &&
     (match pre.head? with | some c => c.isAlpha | none => false) &&
     pre.all isSchemeChar
  then u.drop (pre.length + 1)
  else u

/-- The netloc split of `urlsplit`: when the remainder starts with `//`,
the netloc extends to the next `/`, `?` or `#` (which stays with the
remainder). -/
def splitNetloc (u : List Char) : List Char :=
  if "//".data.isPrefixOf u then
    (u.drop 2).dropWhile (fun c => c ≠ '/' && c ≠ '?' && c ≠ '#')
  else u

/-- `_splitparams` applied by `urlparse` to the split path: when the path
contains `/`, a `;` in its last segment truncates that segment; otherwise
a `;` truncates the whole path. -/
def stripParams (p : List Char) : List Char :=
  if p.contains '/' then
    let seg := (p.reverse.takeWhile (fun c => c ≠ '/')).reverse
    p.take (p.length - seg.length) ++ seg.takeWhile (fun c => c ≠ ';')
  else p.takeWhile (fun c => c ≠ ';')

/-- `urlparse(url).path`: strip the scheme, strip the netloc, truncate at
the first `#` (fragment) then at the first `?` (query), then strip
params. -/
def urlparsePath (url : List Char) : List Char :=
  stripParams
    (((splitNetloc (splitScheme url)).takeWhile (fun c => c ≠ '#')).takeWhile
      (fun c => c ≠ '?'))

/-- Python `str.split("/")`: splits on every separator and never returns
an empty list — `"".split("/") == [""]`. -/
def pySplitSlash : List Char → List (List Char)
  | [] => [[]]
  | c :: t =>
    if c = '/' then [] :: pySplitSlash t
    else
      match pySplitSlash t with
      | [] => [[c]]
      | h :: r => (c :: h) :: r

/-- `filename.lower().endswith((".jpg", ".jpeg", ".png", ".webp"))`
(`xhs.py` line 139). -/
def endsWithRecognizedExt (fn : List Char) : Bool :=
  let l := fn.map Char.toLower
  ".jpg".data.isSuffixOf l || ".jpeg".data.isSuffixOf l ||
  ".png".data.isSuffixOf l || ".webp".data.isSuffixOf l

/-- The filename computation of `xhs.py` lines 133–140 for the `i`-th URL
(0-based `enumerate` index): last element of `urlparse(url).path.split("/")`
when that list is nonempty (it always is), else the synthesized
`image_<i+1><ext>`; then the inferred extension is appended when the name
does not already end in a recognized image extension. -/
def derivedFilename (i : Nat) (url : List Char) (content_type : List Char) :
    List Char :=
  let ext := inferExt content_type
  let path_parts := pySplitSlash (urlparsePath url)
  let filename :=
    match path_parts.getLast? with
    | some f => f
    | none => ("image_" ++ toString (i + 1)).data ++ ext
  if endsWithRecognizedExt filename then filename else filename ++ ext

/-- `os.path.join(save_dir, filename)` (POSIX): a filename that is itself
absolute replaces the directory; an empty directory contributes nothing; a
separator is inserted unless the directory already ends in one. -/
def ospathJoin (d fn : List Char) : List Char :=
  if fn.head? = some '/' then fn
  else if d.isEmpty then fn
  else if d.getLast? = some '/' then d ++ fn
  else d ++ '/' :: fn

/-- Outcome of one iteration's external effects: `requests.get(url)`
either raises (`netError`) or returns a response with a final status,
headers and body; `writeOk` tells whether the `open`/`write` of the body
succeeded.  Any of the three failures is caught by the per-iteration
`except` clause. -/
inductive DLOutcome where
  | netError
  | resp (status : Nat) (headers : List (String × String)) (body : String)
      (writeOk : Bool)

/-- One iteration of the download loop (`xhs.py` lines 116–151): `none`
when the iteration's exception is caught (network failure, 4xx/5xx status
via `raise_for_status`, or write failure), otherwise the written
`(path, body)` pair. -/
def downloadStep (i : Nat) (save_dir url : List Char) :
    DLOutcome → Option (List Char × String)
  | .netError => none
  | .resp status headers body writeOk =>
    if raiseForStatusRaises status then none
    else if writeOk then
      some (ospathJoin save_dir (derivedFilename i url (contentTypeOf headers)),
        body)
    else none

/-- The download loop with its `enumerate` counter, collecting the
successful writes in order. -/
def downloadGo (i : Nat) (save_dir : List Char) :
    List (List Char × DLOutcome) → List (List Char × String)
  | [] => []
  | (url, o) :: rest =>
    match downloadStep i save_dir url o with
    | some w => w :: downloadGo (i + 1) save_dir rest
    | none => downloadGo (i + 1) save_dir rest

/-- The ordered `(path, body)` writes performed by `download_images`. -/
def dlWrites (items : List (List Char × DLOutcome)) (save_dir : List Char) :
    List (List Char × String) :=
  downloadGo 0 save_dir items

/-- `download_images(image_urls, save_dir)` (`xhs.py` lines 98–153):
`downloaded_paths`, the paths of the successful writes in input order.
Each URL is paired with its external outcome. -/
def download_images (items : List (List Char × DLOutcome))
    (save_dir : List Char) : List (List Char) :=
  (dlWrites items save_dir).map Prod.fst

/-- Content of the file at path `p` after the loop ran: the body of the
last successful write to `p`, if any (later writes overwrite earlier
ones, `open(..., "wb")` truncating). -/
def finalFile (writes : List (List Char × String)) (p : List Char) :
    Option String :=
  ((writes.filter (fun w => w.1 == p)).getLast?).map Prod.snd

/-! ## URL locator

`api2.py` line 33 uses
`re.findall(r'https?://(?:www\.)?(?:xiaohongshu\.com|xhslink\.com)/[^\s<>"\x27]+(?<![\s.,])', text)`
and keeps `urls[0]`.  The pattern is deterministic apart from the greedy
character-class run: the optional `s`, the optional `www.` and the host
alternation each demand incompatible next characters (`s` vs `:`, `w` vs
`x`, `xi` vs `xh`), so greedy matching without fallback is exact.  The
trailing lookbehind `(?<![\s.,])` backtracks the run one character at a
time; as the class already excludes whitespace this strips trailing `.`
and `,` characters, and the match fails when nothing remains. -/

/-- Python's `\s` for `str` patterns: the code points matched by
`re.match(r"\s", chr(i))` in CPython 3. -/
def pyWhitespace (c : Char) : Bool :=
  c.toNat ∈ [0x9, 0xA, 0xB, 0xC, 0xD, 0x1C, 0x1D, 0x1E, 0x1F, 0x20, 0x85,
    0xA0, 0x1680, 0x2000, 0x2001, 0x2002, 0x2003, 0x2004, 0x2005, 0x2006,
    0x2007, 0x2008, 0x2009, 0x200A, 0x2028, 0x2029, 0x202F, 0x205F, 0x3000]

/-- The character class `[^\s<>"\x27]` of the URL pattern (`\x27` is the
apostrophe). -/
def urlBodyChar (c : Char) : Bool :=
  !(pyWhitespace c || c == '<' || c == '>' || c == '"' || c.toNat == 0x27)

/-- Match a literal, returning the rest of the input. -/
def matchLit (lit s : List Char) : Option (List Char) :=
  if lit.isPrefixOf s then some (s.drop lit.length) else none

/-- Greedily match an optional literal (`s?`, `(?:www\.)?`): consume it
when present, else continue unchanged.  Exact for this pattern: each
optional literal and the text required right after it start with
incompatible characters (`s` vs `:`, `w` vs `x`), so the regex's fallback
alternative can never succeed where the greedy choice fails. -/
def optConsume (lit s : List Char) : List Char :=
  (matchLit lit s).getD s

/-- The lookbehind `(?<![\s.,])` backtracking applied to the greedy run of
`[^\s<>"\x27]+`: the run keeps no whitespace, so the longest prefix whose
last character passes the lookbehind is the run with its trailing `.` and
`,` characters stripped. -/
def stripTrail (run : List Char) : List Char :=
  (run.reverse.dropWhile (fun c => c == '.' || c == ',')).reverse

/-- The regex match attempt anchored at the start of `s`: the full matched
substring, or `none`.  The host alternation tries `xiaohongshu.com/`
first, as the pattern does; the two alternatives diverge at their second
character, so at most one can match. -/
def reMatchAt (s : List Char) : Option (List Char) :=
  match matchLit "http".data s with
  | none => none
  | some r1 =>
    match matchLit "://".data (optConsume "s".data r1) with
    | none => none
    | some r3 =>
      match
        (matchLit "xiaohongshu.com/".data (optConsume "www.".data r3)).orElse
          (fun _ => matchLit "xhslink.com/".data (optConsume "www.".data r3)) with
      | none => none
      | some r5 =>
        if (stripTrail (r5.takeWhile urlBodyChar)).isEmpty then none
        else some (s.take (s.length - r5.length) ++
          stripTrail (r5.takeWhile urlBodyChar))

/-- `re.findall(pattern, text)[0]`: the leftmost match — `re` tries each
start offset from 0 upward and returns the first position where the
anchored attempt succeeds. -/
def findFirstUrl : List Char → Option (List Char)
  | [] => none
  | c :: t =>
    match reMatchAt (c :: t) with
    | some u => some u
    | none => findFirstUrl t

/-! ## Request facade (`api2.py`)

`extract_content` handles `POST /extract`.  The external world — the page
fetch for the located URL and the per-image download outcomes — is
supplied as an explicit environment.  Crucially, the whole body sits in a
`try` whose `except Exception` clause also catches the
`fastapi.HTTPException`s the body itself raises (`HTTPException` is an
`Exception` subclass), re-raising
`HTTPException(500, "处理请求时发生错误: " + str(e))`.  Starlette's
`HTTPException.__str__` renders `"<status_code>: <detail>"`. -/

/-- The request body (`XHSRequest` in `api2.py`). -/
structure XHSRequest where
  text : String
  download_images : Bool
  save_dir : String

/-- A raised `fastapi.HTTPException`, reduced to the status code and
detail the caller sees. -/
structure HTTPError where
  status : Nat
  detail : String
deriving DecidableEq

/-- Starlette's `HTTPException.__str__`. -/
def strOfHTTPError (e : HTTPError) : String :=
  toString e.status ++ ": " ++ e.detail

/-- The catch-all wrapping of `api2.py` lines 58–60. -/
def rewrapError (e : HTTPError) : HTTPError :=
  ⟨500, "处理请求时发生错误: " ++ strOfHTTPError e⟩

/-- `HTTPException(status_code=400, detail=...)` of `api2.py` line 37. -/
def noUrlError : HTTPError := ⟨400, "未在输入文本中找到有效的小红书链接"⟩

/-- `HTTPException(status_code=400, detail=...)` of `api2.py` line 47. -/
def emptyExtractionError : HTTPError := ⟨400, "无法提取内容，请检查链接是否有效"⟩

/-- `HTTPException(status_code=500, detail=...)` of `api2.py` line 54. -/
def imageDownloadError : HTTPError := ⟨500, "图片下载失败"⟩

/-- The external effects of one request: the outcome of the page fetch of
the located URL, and the outcome of each image download, by position in
`content.image_urls`. -/
structure World where
  fetched : FetchOutcome
  imgs : List DLOutcome

/-- `extract_content` (`api2.py` lines 26–60): locate a URL in the free
text, fetch and extract, optionally download images, mapping each failure
to its raised `HTTPException` — which the catch-all then re-wraps. -/
def extract_content (req : XHSRequest) (w : World) :
    Except HTTPError ExtractedContent :=
  match findFirstUrl req.text.data with
  | none => .error (rewrapError noUrlError)
  | some _url =>
    match extract_xhs_content w.fetched with
    | none => .error (rewrapError emptyExtractionError)
    | some content =>
      if req.download_images && !content.image_urls.isEmpty then
        if (download_images ((content.image_urls.map String.data).zip w.imgs)
            req.save_dir.data).isEmpty then
          .error (rewrapError imageDownloadError)
        else .ok content
      else .ok content

/-! ## Shared lemmas -/

/-- A scalar field of a document with no matching meta tag is `None`. -/
lemma scalarField_of_none {doc : List Tag} {nm : String}
    (h : findMeta doc nm = none) : scalarField doc nm = none := by
  simp [scalarField, h]

/-- A scalar field of a document whose first matching meta tag is `t` is
`t.get("content", "")`. -/
lemma scalarField_of_some {doc : List Tag} {nm : String} {t : Tag}
    (h : findMeta doc nm = some t) :
    scalarField doc nm = some (t.getD "content" "") := by
  simp [scalarField, h]

/-- The `og:image` loop keeps exactly the non-empty content values, in
order. -/
lemma collectImageUrls_eq (l : List Tag) :
    collectImageUrls l =
      (l.map (fun t => t.getD "content" "")).filter (fun s => s != "") := by
  induction l with
  | nil => rfl
  | cons t ts ih =>
    by_cases h : t.getD "content" "" = "" <;>
      simp [collectImageUrls, h, ih, List.filter_cons]

/-! ## Claims -/

/-- Claim C2 (code_bug evaluation): for a URL with no path segment the
downloader does not synthesize `image_<index>`; `"".split("/")` is
`[""]`, never empty, so the fallback branch is dead and the filename
degenerates to the bare inferred extension. -/
theorem filename_no_path_segment_is_bare_extension :
    derivedFilename 0 "https://example.com".data "image/png".data
      = ".png".data ∧
    derivedFilename 0 "https://example.com".data "image/png".data
      ≠ "image_1.png".data :=
  ⟨rfl, by decide⟩

/-- Claim C4 counterexample: a surfaced `304 Not Modified` response has a
non-2xx status, yet `extract_xhs_content` succeeds — `raise_for_status`
only raises for 4xx/5xx. -/
theorem fetch_304_not_a_failure :
    extract_xhs_content (.ok 304 []) = some (extractFields []) ∧
    ¬(200 ≤ 304 ∧ 304 < 300) :=
  ⟨rfl, by omega⟩

/-- Claim C4 (amended): the fetch-and-extract fails exactly on a
transport failure or a final HTTP status in 400–599; it is a single
attempt with no retry. -/
theorem fetch_failure_iff (status : Nat) (doc : List Tag) :
    (extract_xhs_content (.ok status doc) = none ↔
      400 ≤ status ∧ status < 600) ∧
    extract_xhs_content .netError = none := by
  refine ⟨?_, rfl⟩
  simp only [extract_xhs_content, raiseForStatusRaises]
  by_cases h : 400 ≤ status ∧ status < 600
  · simp [h.1, h.2]
  · simp only [Bool.and_eq_true, decide_eq_true_eq]
    rw [if_neg (fun hc => h ⟨hc.1, hc.2⟩)]
    simp [h]

/-- Witness for the C4 theorem at concrete statuses 404 and 200. -/
theorem fetch_failure_iff_witness :
    extract_xhs_content (.ok 404 []) = none ∧
    extract_xhs_content (.ok 200 []) ≠ none := by
  refine ⟨(fetch_failure_iff 404 []).1.mpr (by decide), fun hc => ?_⟩
  have := (fetch_failure_iff 200 []).1.mp hc
  omega

/-- Claim C6 counterexample: an `og:image` meta tag whose content value
is the empty string is skipped by the collection loop, so `image_urls`
does not contain the content value of every occurrence. -/
theorem og_image_empty_content_skipped :
    (extractFields [⟨"meta", [("name", "og:image"), ("content", "")]⟩]).image_urls
      = [] ∧
    (extractFields [⟨"meta", [("name", "og:image"), ("content", "")]⟩]).image_urls
      ≠ [""] :=
  ⟨rfl, by decide⟩

/-- Claim C6 (amended): `image_urls` is exactly the sequence of `og:image`
content values in document order with duplicates preserved, except that
occurrences whose content value is empty (or whose `content` attribute is
missing) are omitted. -/
theorem image_urls_document_order (doc : List Tag) :
    (extractFields doc).image_urls =
      ((findAllMeta doc "og:image").map (fun t => t.getD "content" "")).filter
        (fun s => s != "") := by
  simp only [extractFields]
  exact collectImageUrls_eq _

/-- Claim C9: a present meta tag lacking a `content` attribute yields the
empty string for its field, indistinguishable from a tag with empty
content, while an absent tag yields `None`. -/
theorem contentless_tag_yields_empty_string (doc : List Tag) :
    ((extractFields doc).title = scalarField doc "og:title" ∧
     (extractFields doc).content = scalarField doc "description" ∧
     (extractFields doc).likes = scalarField doc "og:xhs:note_like" ∧
     (extractFields doc).comments = scalarField doc "og:xhs:note_comment" ∧
     (extractFields doc).collects = scalarField doc "og:xhs:note_collect") ∧
    (∀ nm t, findMeta doc nm = some t → t.attrs.lookup "content" = none →
      scalarField doc nm = some "") ∧
    (∀ nm t, findMeta doc nm = some t → t.attrs.lookup "content" = some "" →
      scalarField doc nm = some "") ∧
    (∀ nm, findMeta doc nm = none → scalarField doc nm = none) := by
  refine ⟨⟨rfl, rfl, rfl, rfl, rfl⟩, ?_, ?_, fun nm h => scalarField_of_none h⟩
  · intro nm t ht hc
    rw [scalarField_of_some ht]
    simp [Tag.getD, hc]
  · intro nm t ht hc
    rw [scalarField_of_some ht]
    simp [Tag.getD, hc]

/-- Witness for the C9 theorem: a `<meta name="og:title">` with no
`content` attribute yields `title = Some ""`. -/
theorem contentless_tag_yields_empty_string_witness :
    (extractFields [⟨"meta", [("name", "og:title")]⟩]).title = some "" := by
  have h := contentless_tag_yields_empty_string [⟨"meta", [("name", "og:title")]⟩]
  rw [h.1.1]
  exact h.2.1 "og:title" ⟨"meta", [("name", "og:title")]⟩ rfl rfl

/-- The spec's description of the downloader result: the paths of the
successfully written images, one per success, in original URL order
(`enumerate` pairing each URL with its index). -/
def specSuccessfulPaths (items : List (List Char × DLOutcome))
    (save_dir : List Char) : List (List Char) :=
  items.enum.filterMap
    (fun p => (downloadStep p.1 save_dir p.2.1 p.2.2).map Prod.fst)

lemma downloadGo_map_fst (save_dir : List Char) :
    ∀ (items : List (List Char × DLOutcome)) (i : Nat),
    (downloadGo i save_dir items).map Prod.fst =
      (items.enumFrom i).filterMap
        (fun p => (downloadStep p.1 save_dir p.2.1 p.2.2).map Prod.fst)
  | [], _ => rfl
  | (url, o) :: rest, i => by
    simp only [downloadGo, List.enumFrom, List.filterMap_cons]
    cases h : downloadStep i save_dir url o with
    | none => simp [h, downloadGo_map_fst save_dir rest (i + 1)]
    | some w => simp [h, downloadGo_map_fst save_dir rest (i + 1)]

/-- Claim C7: a failure on one URL never aborts the batch — the result is
exactly the paths of the successful writes, in original URL order, hence
no longer than the input; concretely, a 3-URL batch whose middle download
404s yields exactly the 2 succeeding paths in order. -/
theorem download_failure_isolation (items : List (List Char × DLOutcome))
    (save_dir : List Char) :
    download_images items save_dir = specSuccessfulPaths items save_dir ∧
    (download_images items save_dir).length ≤ items.length ∧
    download_images
      [("https://s.example/a.png".data,
          .resp 200 [("Content-Type", "image/png")] "b1" true),
       ("https://s.example/b.png".data, .resp 404 [] "b2" true),
       ("https://s.example/c.png".data, .resp 200 [] "b3" true)]
      "images".data
      = ["images/a.png".data, "images/c.png".data] := by
  have he : download_images items save_dir = specSuccessfulPaths items save_dir := by
    simp only [download_images, dlWrites, specSuccessfulPaths, List.enum]
    exact downloadGo_map_fst save_dir items 0
  refine ⟨he, ?_, rfl⟩
  rw [he]
  calc (specSuccessfulPaths items save_dir).length
      ≤ items.enum.length := List.length_filterMap_le _ _
    _ = items.length := List.enum_length

/-- Claim C5 counterexample: a document containing all six meta tags, the
`og:image` one with content value `""`, does not yield `image_urls`
populated with that content value verbatim — the empty value is dropped. -/
theorem all_six_tags_not_verbatim :
    (extractFields
      [⟨"meta", [("name", "og:title"), ("content", "Hello")]⟩,
       ⟨"meta", [("name", "description"), ("content", "World")]⟩,
       ⟨"meta", [("name", "og:image"), ("content", "")]⟩,
       ⟨"meta", [("name", "og:xhs:note_like"), ("content", "100")]⟩,
       ⟨"meta", [("name", "og:xhs:note_comment"), ("content", "5")]⟩,
       ⟨"meta", [("name", "og:xhs:note_collect"), ("content", "7")]⟩]).image_urls
      = [] ∧
    (extractFields
      [⟨"meta", [("name", "og:title"), ("content", "Hello")]⟩,
       ⟨"meta", [("name", "description"), ("content", "World")]⟩,
       ⟨"meta", [("name", "og:image"), ("content", "")]⟩,
       ⟨"meta", [("name", "og:xhs:note_like"), ("content", "100")]⟩,
       ⟨"meta", [("name", "og:xhs:note_comment"), ("content", "5")]⟩,
       ⟨"meta", [("name", "og:xhs:note_collect"), ("content", "7")]⟩]).image_urls
      ≠ [""] :=
  ⟨rfl, by decide⟩

/-- Claim C5 (amended): each field is extracted independently — a missing
meta tag yields `None` for its scalar field and an empty list for
`image_urls`, without failing the extraction; a present tag populates its
scalar field with the first occurrence's content value verbatim; and
`image_urls` carries the `og:image` content values verbatim except that
empty values are omitted. -/
theorem field_independence (doc : List Tag) :
    (findMeta doc "og:title" = none → (extractFields doc).title = none) ∧
    (∀ t, findMeta doc "og:title" = some t →
      (extractFields doc).title = some (t.getD "content" "")) ∧
    (findMeta doc "description" = none → (extractFields doc).content = none) ∧
    (∀ t, findMeta doc "description" = some t →
      (extractFields doc).content = some (t.getD "content" "")) ∧
    (findMeta doc "og:xhs:note_like" = none → (extractFields doc).likes = none) ∧
    (∀ t, findMeta doc "og:xhs:note_like" = some t →
      (extractFields doc).likes = some (t.getD "content" "")) ∧
    (findMeta doc "og:xhs:note_comment" = none →
      (extractFields doc).comments = none) ∧
    (∀ t, findMeta doc "og:xhs:note_comment" = some t →
      (extractFields doc).comments = some (t.getD "content" "")) ∧
    (findMeta doc "og:xhs:note_collect" = none →
      (extractFields doc).collects = none) ∧
    (∀ t, findMeta doc "og:xhs:note_collect" = some t →
      (extractFields doc).collects = some (t.getD "content" "")) ∧
    (findAllMeta doc "og:image" = [] → (extractFields doc).image_urls = []) ∧
    ((extractFields doc).image_urls =
      ((findAllMeta doc "og:image").map (fun t => t.getD "content" "")).filter
        (fun s => s != "")) := by
  refine ⟨fun h => scalarField_of_none h, fun t h => scalarField_of_some h,
    fun h => scalarField_of_none h, fun t h => scalarField_of_some h,
    fun h => scalarField_of_none h, fun t h => scalarField_of_some h,
    fun h => scalarField_of_none h, fun t h => scalarField_of_some h,
    fun h => scalarField_of_none h, fun t h => scalarField_of_some h,
    fun h => ?_, ?_⟩
  · simp only [extractFields, h]
    rfl
  · simp only [extractFields]
    exact collectImageUrls_eq _

/-- Witness for the C5 theorem on a document carrying all six tags with
non-empty content values. -/
theorem field_independence_witness :
    (extractFields
      [⟨"meta", [("name", "og:title"), ("content", "Hello")]⟩,
       ⟨"meta", [("name", "description"), ("content", "World")]⟩,
       ⟨"meta", [("name", "og:image"), ("content", "http://img/1")]⟩,
       ⟨"meta", [("name", "og:xhs:note_like"), ("content", "100")]⟩,
       ⟨"meta", [("name", "og:xhs:note_comment"), ("content", "5")]⟩,
       ⟨"meta", [("name", "og:xhs:note_collect"), ("content", "7")]⟩]).title
      = some "Hello" ∧
    (extractFields
      [⟨"meta", [("name", "og:title"), ("content", "Hello")]⟩,
       ⟨"meta", [("name", "description"), ("content", "World")]⟩,
       ⟨"meta", [("name", "og:image"), ("content", "http://img/1")]⟩,
       ⟨"meta", [("name", "og:xhs:note_like"), ("content", "100")]⟩,
       ⟨"meta", [("name", "og:xhs:note_comment"), ("content", "5")]⟩,
       ⟨"meta", [("name", "og:xhs:note_collect"), ("content", "7")]⟩]).content
      = some "World" := by
  have h := field_independence
    [⟨"meta", [("name", "og:title"), ("content", "Hello")]⟩,
     ⟨"meta", [("name", "description"), ("content", "World")]⟩,
     ⟨"meta", [("name", "og:image"), ("content", "http://img/1")]⟩,
     ⟨"meta", [("name", "og:xhs:note_like"), ("content", "100")]⟩,
     ⟨"meta", [("name", "og:xhs:note_comment"), ("content", "5")]⟩,
     ⟨"meta", [("name", "og:xhs:note_collect"), ("content", "7")]⟩]
  exact ⟨h.2.1 ⟨"meta", [("name", "og:title"), ("content", "Hello")]⟩ rfl,
    h.2.2.2.1 ⟨"meta", [("name", "description"), ("content", "World")]⟩ rfl⟩

/-! ## Filename derivation lemmas -/

/-- `str.split` never yields an empty list. -/
lemma pySplitSlash_ne_nil : ∀ s : List Char, pySplitSlash s ≠ []
  | [] => by simp [pySplitSlash]
  | c :: t => by
    simp only [pySplitSlash]
    by_cases h : c = '/'
    · simp [h]
    · rw [if_neg h]
      rcases hh : pySplitSlash t with _ | ⟨a, r⟩ <;> simp

/-- The base filename the downloader derives: the last segment of the
URL's parsed path. -/
def lastSegment (url : List Char) : List Char :=
  ((pySplitSlash (urlparsePath url)).getLast?).getD []

lemma getLast?_pySplitSlash (url : List Char) :
    (pySplitSlash (urlparsePath url)).getLast? = some (lastSegment url) := by
  have h := List.getLast?_isSome.mpr (pySplitSlash_ne_nil (urlparsePath url))
  rcases Option.isSome_iff_exists.mp h with ⟨a, ha⟩
  simp [lastSegment, ha]

/-- The filename computation, characterised: the last path segment, with
the inferred extension appended when the segment does not already end in a
recognized image extension.  The `image_<index>` fallback is dead code. -/
lemma derivedFilename_eq (i : Nat) (url ct : List Char) :
    derivedFilename i url ct =
      if endsWithRecognizedExt (lastSegment url) then lastSegment url
      else lastSegment url ++ inferExt ct := by
  simp only [derivedFilename, getLast?_pySplitSlash]

lemma isSuffixOf_append (l₁ l₂ : List Char) : l₂.isSuffixOf (l₁ ++ l₂) = true := by
  rw [List.isSuffixOf_iff_suffix]
  exact List.suffix_append l₁ l₂

/-- Claim C8: extension inference — for a derived filename lacking a
recognized image extension, `Content-Type: image/png` yields a written
name ending in `.png` (likewise `image/jpeg → .jpg`, `image/webp →
.webp`), an unknown or missing content type defaults to `.jpg`, and a
filename already carrying a recognized extension is left unchanged. -/
theorem extension_inference (i : Nat) (url ct : List Char) :
    (endsWithRecognizedExt (lastSegment url) = false → ct = "image/png".data →
      ".png".data.isSuffixOf (derivedFilename i url ct) = true) ∧
    (endsWithRecognizedExt (lastSegment url) = false → ct = "image/jpeg".data →
      ".jpg".data.isSuffixOf (derivedFilename i url ct) = true) ∧
    (endsWithRecognizedExt (lastSegment url) = false → ct = "image/webp".data →
      ".webp".data.isSuffixOf (derivedFilename i url ct) = true) ∧
    (endsWithRecognizedExt (lastSegment url) = false →
      listInfixOf "image/jpeg".data ct = false →
      listInfixOf "image/png".data ct = false →
      listInfixOf "image/webp".data ct = false →
      ".jpg".data.isSuffixOf (derivedFilename i url ct) = true) ∧
    (endsWithRecognizedExt (lastSegment url) = true →
      derivedFilename i url ct = lastSegment url) := by
  refine ⟨fun h hc => ?_, fun h hc => ?_, fun h hc => ?_,
    fun h h1 h2 h3 => ?_, fun h => ?_⟩
  · rw [derivedFilename_eq, if_neg (by simp [h]), hc]
    exact isSuffixOf_append _ _
  · rw [derivedFilename_eq, if_neg (by simp [h]), hc]
    exact isSuffixOf_append _ _
  · rw [derivedFilename_eq, if_neg (by simp [h]), hc]
    exact isSuffixOf_append _ _
  · rw [derivedFilename_eq, if_neg (by simp [h])]
    have : inferExt ct = ".jpg".data := by simp [inferExt, h1, h2, h3]
    rw [this]
    exact isSuffixOf_append _ _
  · rw [derivedFilename_eq, if_pos h]

/-- Witness for the C8 theorem: a URL whose last segment `f00` has no
extension, downloaded as `image/png`, produces a name ending in `.png`;
with content type `text/plain` it ends in `.jpg`; a URL ending in
`photo.png` keeps its name. -/
theorem extension_inference_witness :
    ".png".data.isSuffixOf
      (derivedFilename 0 "https://s.example/f00".data "image/png".data) = true ∧
    ".jpg".data.isSuffixOf
      (derivedFilename 0 "https://s.example/f00".data "text/plain".data) = true ∧
    derivedFilename 0 "https://s.example/photo.png".data "image/jpeg".data
      = lastSegment "https://s.example/photo.png".data := by
  refine ⟨(extension_inference 0 "https://s.example/f00".data "image/png".data).1
      (by decide) rfl,
    (extension_inference 0 "https://s.example/f00".data "text/plain".data).2.2.2.1
      (by decide) (by decide) (by decide) (by decide),
    (extension_inference 0 "https://s.example/photo.png".data
      "image/jpeg".data).2.2.2.2 (by decide)⟩

/-- Claim C10 counterexample: two URLs sharing the last path segment
`photo` (which has no recognized extension) are written under *different*
paths when their responses declare different content types — the output
path does not depend solely on the last path segment. -/
theorem same_segment_different_paths :
    lastSegment "http://a.com/img/photo".data
      = lastSegment "http://b.com/pix/photo".data ∧
    download_images
      [("http://a.com/img/photo".data,
          .resp 200 [("Content-Type", "image/png")] "b1" true),
       ("http://b.com/pix/photo".data,
          .resp 200 [("Content-Type", "image/jpeg")] "b2" true)]
      "images".data
      = ["images/photo.png".data, "images/photo.jpg".data] ∧
    ("images/photo.png".data : List Char) ≠ "images/photo.jpg".data := by
  refine ⟨rfl, ?_, by decide⟩
  rfl

/-- Claim C10 (amended): the output path is derived from the last path
segment plus, when that segment lacks a recognized image extension, the
content-type-inferred extension.  Two successfully downloaded URLs whose
last segments are equal and already carry a recognized extension map to
the same output path regardless of content type: the returned sequence
contains that path once per URL, and the later download's bytes overwrite
the earlier file. -/
theorem same_segment_overwrite (u1 u2 d : List Char)
    (h1 h2 : List (String × String)) (b1 b2 : String)
    (hseg : lastSegment u1 = lastSegment u2)
    (hext : endsWithRecognizedExt (lastSegment u1) = true) :
    download_images
      [(u1, .resp 200 h1 b1 true), (u2, .resp 200 h2 b2 true)] d
      = [ospathJoin d (lastSegment u1), ospathJoin d (lastSegment u1)] ∧
    finalFile (dlWrites [(u1, .resp 200 h1 b1 true), (u2, .resp 200 h2 b2 true)] d)
      (ospathJoin d (lastSegment u1)) = some b2 := by
  have e1 : derivedFilename 0 u1 (contentTypeOf h1) = lastSegment u1 := by
    rw [derivedFilename_eq, if_pos hext]
  have e2 : derivedFilename 1 u2 (contentTypeOf h2) = lastSegment u1 := by
    rw [derivedFilename_eq, ← hseg, if_pos hext]
  have hw : dlWrites [(u1, .resp 200 h1 b1 true), (u2, .resp 200 h2 b2 true)] d
      = [(ospathJoin d (lastSegment u1), b1), (ospathJoin d (lastSegment u1), b2)] := by
    simp [dlWrites, downloadGo, downloadStep, raiseForStatusRaises, e1, e2]
  refine ⟨by simp [download_images, hw], ?_⟩
  simp [finalFile, hw]

/-- Witness for the C10 theorem: two URLs both ending in `photo.png`,
served as `image/png` and `image/jpeg` respectively, yield the path
`images/photo.png` twice and the second body on disk. -/
theorem same_segment_overwrite_witness :
    download_images
      [("http://a.com/x/photo.png".data,
          .resp 200 [("Content-Type", "image/png")] "b1" true),
       ("http://b.com/y/photo.png".data,
          .resp 200 [("Content-Type", "image/jpeg")] "b2" true)]
      "images".data
      = ["images/photo.png".data, "images/photo.png".data] ∧
    finalFile
      (dlWrites
        [("http://a.com/x/photo.png".data,
            .resp 200 [("Content-Type", "image/png")] "b1" true),
         ("http://b.com/y/photo.png".data,
            .resp 200 [("Content-Type", "image/jpeg")] "b2" true)]
        "images".data)
      "images/photo.png".data = some "b2" := by
  have h := same_segment_overwrite "http://a.com/x/photo.png".data
    "http://b.com/y/photo.png".data "images".data
    [("Content-Type", "image/png")] [("Content-Type", "image/jpeg")]
    "b1" "b2" rfl rfl
  exact h

/-- Claim C1 counterexample: for a request whose text contains no
matching URL, the caller does not see the raised
`HTTPException(400, "未在输入文本中找到有效的小红书链接")` — the facade's
catch-all `except Exception` intercepts it and re-raises a generic 500
whose detail merely embeds the original. -/
theorem no_url_error_is_rewrapped :
    extract_content ⟨"hello, no links here", false, "images"⟩ ⟨.netError, []⟩
      = .error (rewrapError noUrlError) ∧
    (rewrapError noUrlError).status ≠ noUrlError.status ∧
    (rewrapError noUrlError).detail ≠ noUrlError.detail :=
  ⟨rfl, by decide, by decide⟩

/-- Claim C1 (amended): the three failure conditions — no URL located,
extraction yielded nothing, image download produced nothing — map to
pairwise distinct caller-visible messages, but each is re-wrapped by the
catch-all handler into a generic 500 error embedding the original status
and message, rather than surfaced as the error raised. -/
theorem facade_error_surfacing (req : XHSRequest) (w : World) :
    (findFirstUrl req.text.data = none →
      extract_content req w = .error (rewrapError noUrlError)) ∧
    (∀ u, findFirstUrl req.text.data = some u →
      extract_xhs_content w.fetched = none →
      extract_content req w = .error (rewrapError emptyExtractionError)) ∧
    (∀ u content, findFirstUrl req.text.data = some u →
      extract_xhs_content w.fetched = some content →
      req.download_images = true → content.image_urls ≠ [] →
      download_images ((content.image_urls.map String.data).zip w.imgs)
        req.save_dir.data = [] →
      extract_content req w = .error (rewrapError imageDownloadError)) ∧
    ((rewrapError noUrlError).detail ≠ (rewrapError emptyExtractionError).detail ∧
     (rewrapError noUrlError).detail ≠ (rewrapError imageDownloadError).detail ∧
     (rewrapError emptyExtractionError).detail ≠ (rewrapError imageDownloadError).detail) ∧
    ((rewrapError noUrlError).status = 500 ∧
     (rewrapError emptyExtractionError).status = 500 ∧
     (rewrapError imageDownloadError).status = 500) := by
  refine ⟨fun h => ?_, fun u hu he => ?_, fun u content hu hc hd hne hdl => ?_,
    ⟨by decide, by decide, by decide⟩, rfl, rfl, rfl⟩
  · simp [extract_content, h]
  · simp [extract_content, hu, he]
  · have himg : content.image_urls.isEmpty = false := by
      simpa [List.isEmpty_iff] using hne
    simp [extract_content, hu, hc, hd, himg, hdl]

/-- Witness for the C1 theorem: requests exercising the no-URL and
empty-extraction branches. -/
theorem facade_error_surfacing_witness :
    extract_content ⟨"hi there", false, "images"⟩ ⟨.netError, []⟩
      = .error (rewrapError noUrlError) ∧
    extract_content ⟨"x https://xhslink.com/a", false, "images"⟩ ⟨.netError, []⟩
      = .error (rewrapError emptyExtractionError) := by
  refine ⟨(facade_error_surfacing ⟨"hi there", false, "images"⟩ ⟨.netError, []⟩).1 rfl,
    (facade_error_surfacing ⟨"x https://xhslink.com/a", false, "images"⟩
      ⟨.netError, []⟩).2.1 "https://xhslink.com/a".data rfl rfl⟩

/-! ## URL locator lemmas -/

lemma reMatchAt_nil : reMatchAt [] = none := rfl

lemma head?_dropWhile {p : Char → Bool} :
    ∀ (l : List Char) (x : Char), (l.dropWhile p).head? = some x → p x = false := by
  intro l
  induction l with
  | nil => intro x h; simp [List.dropWhile] at h
  | cons a t ih =>
    intro x h
    rw [List.dropWhile_cons] at h
    by_cases hp : p a
    · rw [if_pos hp] at h
      exact ih x h
    · rw [if_neg hp] at h
      simp only [List.head?_cons, Option.some.injEq] at h
      rw [← h]
      simpa using hp

/-- A nonempty stripped run does not end in `.` or `,`. -/
lemma stripTrail_getLast? (run : List Char) (hne : stripTrail run ≠ []) :
    stripTrail run ≠ [] ∧ (stripTrail run).getLast? ≠ some '.' ∧
      (stripTrail run).getLast? ≠ some ',' := by
  refine ⟨hne, ?_, ?_⟩ <;>
  · intro hlast
    rw [stripTrail, List.getLast?_reverse] at hlast
    have := head?_dropWhile (p := fun c => c == '.' || c == ',') run.reverse _ hlast
    simp at this

/-- Every successful match is nonempty and ends in neither `.` nor `,`. -/
lemma reMatchAt_last {s u : List Char} (h : reMatchAt s = some u) :
    u ≠ [] ∧ u.getLast? ≠ some '.' ∧ u.getLast? ≠ some ',' := by
  unfold reMatchAt at h
  split at h
  · simp at h
  split at h
  · simp at h
  split at h
  · simp at h
  split at h
  · simp at h
  next r5 _ hbody =>
    injection h with h
    subst h
    have hne : stripTrail (r5.takeWhile urlBodyChar) ≠ [] := by
      intro hc
      exact hbody (List.isEmpty_iff.mpr hc)
    obtain ⟨h1, h2, h3⟩ := stripTrail_getLast? (r5.takeWhile urlBodyChar) hne
    have hys : (stripTrail (r5.takeWhile urlBodyChar)).getLast?.isSome :=
      List.getLast?_isSome.mpr h1
    rcases Option.isSome_iff_exists.mp hys with ⟨y, hy⟩
    refine ⟨?_, ?_, ?_⟩
    · intro hc
      exact h1 ((List.append_eq_nil.mp hc).2)
    · intro hc
      rw [List.getLast?_append, hy] at hc
      exact h2 (by rw [hy]; exact hc)
    · intro hc
      rw [List.getLast?_append, hy] at hc
      exact h3 (by rw [hy]; exact hc)

/-- `findFirstUrl` returns the match at the first offset where the
anchored attempt succeeds. -/
lemma findFirstUrl_first :
    ∀ (s : List Char) (i : Nat),
      (∀ j, j < i → reMatchAt (s.drop j) = none) →
      (reMatchAt (s.drop i)).isSome = true →
      findFirstUrl s = reMatchAt (s.drop i)
  | [], i, _, hi => by
    rw [List.drop_nil, reMatchAt_nil] at hi
    simp at hi
  | c :: t, 0, _, hi => by
    rw [List.drop_zero] at hi ⊢
    unfold findFirstUrl
    rcases ho : reMatchAt (c :: t) with _ | u
    · rw [ho] at hi; simp at hi
    · rfl
  | c :: t, i + 1, hmin, hi => by
    have h0 : reMatchAt (c :: t) = none := by
      have := hmin 0 (Nat.succ_pos i)
      rwa [List.drop_zero] at this
    have hmin' : ∀ j, j < i → reMatchAt (t.drop j) = none := by
      intro j hj
      have := hmin (j + 1) (Nat.succ_lt_succ hj)
      rwa [List.drop_succ_cons] at this
    have hi' : (reMatchAt (t.drop i)).isSome = true := by
      rwa [List.drop_succ_cons] at hi
    rw [List.drop_succ_cons]
    unfold findFirstUrl
    rw [h0]
    exact findFirstUrl_first t i hmin' hi'

/-- Claim C3: when some offset of the text carries a regex match (a
well-formed allow-listed URL), the locator returns exactly the match at
the first such offset, and the returned URL is nonempty and ends in
neither a period nor a comma. -/
theorem locator_first_url (s : List Char) (i : Nat)
    (hmin : ∀ j, j < i → reMatchAt (s.drop j) = none)
    (hi : (reMatchAt (s.drop i)).isSome = true) :
    findFirstUrl s = reMatchAt (s.drop i) ∧
    ∀ u, findFirstUrl s = some u →
      u ≠ [] ∧ u.getLast? ≠ some '.' ∧ u.getLast? ≠ some ',' := by
  have h1 := findFirstUrl_first s i hmin hi
  exact ⟨h1, fun u hu => reMatchAt_last (h1 ▸ hu)⟩

/-- Witness for the C3 theorem: a text whose match sits at offset 0,
followed by a comma that is excluded from the returned URL. -/
theorem locator_first_url_witness :
    findFirstUrl "https://www.xiaohongshu.com/explore/abc123, tail".data
      = some "https://www.xiaohongshu.com/explore/abc123".data := by
  have h := locator_first_url
    "https://www.xiaohongshu.com/explore/abc123, tail".data 0
    (fun j hj => absurd hj (Nat.not_lt_zero j)) (by rfl)
  rw [h.1]
  rfl

end XHS
